import Mathlib

/-
Verification development for the ZeroMQ MDP 0.1 broker
(src/code/zato-zmq/src/zato/zmq_/mdp/broker.py).

The broker state and its operations are shallowly embedded as pure Lean
functions over an explicit Broker record.  Python dictionaries become
insertion-ordered association lists, Python lists become Lean lists, and
wall-clock time (datetime.utcnow) becomes an explicit integer argument of
each operation.  A Python exception is modelled as Except.error: the state
after a raise is not modelled, only the fact that the operation raised.
Outbound socket traffic is recorded in a transcript field named sent.
-/

-- ########################################################################
-- Data model
-- ########################################################################

/-- Worker classes, from const.worker_type in the mdp package (zmq and zato). -/
inductive WorkerType where
  | zmq : WorkerType
  | zato : WorkerType
deriving DecidableEq, Repr

/-- Modelled from the spec: the tag string of a worker class, used by the
reversible wrap transform of the codec (the mdp package itself is not under
src/, only broker.py is). -/
def wrapTag : WorkerType → String
  | WorkerType.zmq => "zmq"
  | WorkerType.zato => "zato"

/-- Modelled from the spec: WorkerData.wrap_worker_id combines the
worker-class tag and the raw transport address with a fixed separator. -/
def wrap_worker_id (ty : WorkerType) (raw : String) : String :=
  wrapTag ty ++ "/" ++ raw

/-- Modelled from the spec: const.ttl of the mdp package.  The spec describes
the liveness TTL as heartbeat interval times a multiplier; as a module-level
constant it is fixed at the default configuration heartbeat=3,
heartbeat_mult=2, hence 6 seconds. -/
def const.ttl : Int := 6

/-- Modelled from the spec: originator tag of client messages (const.v01.client). -/
def const.v01.client : String := "MDPC01"

/-- Modelled from the spec: the READY worker command (const.v01.ready). -/
def const.v01.ready : String := "0x01"

/-- Modelled from the spec: the REPLY worker command (const.v01.reply_from_worker). -/
def const.v01.reply_from_worker : String := "0x03"

/-- Modelled from the spec: the HEARTBEAT worker command (const.v01.heartbeat). -/
def const.v01.heartbeat : String := "0x04"

/-- Modelled from the spec: the DISCONNECT worker command (const.v01.disconnect). -/
def const.v01.disconnect : String := "0x05"

/-- Modelled from the spec: a WorkerData record; fields follow the data model
section of the spec (worker class, raw address, declared service, creation
time, optional heartbeat timestamps, expiry time). -/
structure WorkerData where
  type : WorkerType
  worker_id : String
  service_name : String
  registered_at : Int
  last_hb_sent : Option Int
  last_hb_received : Option Int
  expires_at : Int
deriving DecidableEq, Repr

/-- The registry key of a worker: its wrapped identity. -/
def WorkerData.id (wd : WorkerData) : String :=
  wrap_worker_id wd.type wd.worker_id

/-- WorkerData.unwrap_id returns the raw transport address. -/
def WorkerData.unwrap_id (wd : WorkerData) : String :=
  wd.worker_id

/-- Modelled from the spec: an EventWorkerRequest, created in handle_client
from the request body and the requesting client address. -/
structure EventWorkerRequest where
  body : String
  client_id : String
deriving DecidableEq, Repr

/-- Modelled from the spec: a ServiceState (class Service of the mdp package):
a FIFO queue of pending requests and a FIFO queue of wrapped worker ids. -/
structure Service where
  name : String
  pending_requests : List EventWorkerRequest
  workers : List String
deriving DecidableEq, Repr

/-- A freshly created Service, as produced by Service(service_name). -/
def Service.new (name : String) : Service :=
  { name := name, pending_requests := [], workers := [] }

/-- One outbound transport send, recorded in the broker transcript.  The
toWorkerZato constructor marks the internal-delivery branch of
dispatch_requests; in the source that branch calls send_to_worker_zato, whose
body raises NotImplementedError, so recording the call makes its
(non-)execution observable in final states. -/
inductive Sent where
  | toWorkerZmq : String → EventWorkerRequest → Sent
  | toWorkerZato : String → EventWorkerRequest → Sent
  | clientReply : String → String → Sent
deriving DecidableEq, Repr

/-- True exactly on the internal-delivery (send_to_worker_zato) branch. -/
def Sent.isZato : Sent → Bool
  | Sent.toWorkerZato _ _ => true
  | _ => false

/-- The broker state: configuration, the services dict, the workers dict and
the transcript of outbound sends.  Mirrors Broker.__init__ of broker.py. -/
structure Broker where
  heartbeat : Int
  heartbeat_mult : Int
  services : List (String × Service)
  workers : List (String × WorkerData)
  sent : List Sent
deriving DecidableEq, Repr

-- ########################################################################
-- Association-list primitives (Python dict semantics)
-- ########################################################################

/-- Dictionary lookup: value of the first entry with the given key. -/
def lookupA {α : Type} (k : String) : List (String × α) → Option α
  | [] => none
  | (k0, v) :: rest => if k0 = k then some v else lookupA k rest

/-- Dictionary assignment d[k] = v: update in place, or append a new entry. -/
def insertA {α : Type} (k : String) (v : α) : List (String × α) → List (String × α)
  | [] => [(k, v)]
  | (k0, v0) :: rest => if k0 = k then (k0, v) :: rest else (k0, v0) :: insertA k v rest

/-- Dictionary deletion of the first entry with the given key (no-op when absent). -/
def eraseA {α : Type} (k : String) : List (String × α) → List (String × α)
  | [] => []
  | (k0, v0) :: rest => if k0 = k then rest else (k0, v0) :: eraseA k rest

/-- Dictionary pop: d.pop(k), returning the value and the shrunken dict. -/
def popA {α : Type} (k : String) (l : List (String × α)) : Option (α × List (String × α)) :=
  match lookupA k l with
  | none => none
  | some v => some (v, eraseA k l)

/-- Dictionary setdefault: keep the dict if the key exists, else append. -/
def setdefaultA {α : Type} (k : String) (v : α) (l : List (String × α)) : List (String × α) :=
  match lookupA k l with
  | some _ => l
  | none => l ++ [(k, v)]

/-- Number of occurrences of a string in a list. -/
def countS (a : String) : List String → Nat
  | [] => 0
  | b :: rest => (if b = a then 1 else 0) + countS a rest

/-- Python list.remove semantics restricted to success: drop the first
occurrence, identity when the element is absent. -/
def removeFirst (a : String) : List String → List String
  | [] => []
  | b :: rest => if b = a then rest else b :: removeFirst a rest

/-- Removal of a worker id from the queue of every service, guarded by
membership (a no-op on queues that do not hold the id). -/
def mapRemove (id : String) (l : List (String × Service)) : List (String × Service) :=
  l.map (fun p => (p.1, { p.2 with workers := removeFirst id p.2.workers }))

-- ########################################################################
-- Broker operations (broker.py)
-- ########################################################################

/-- The ids of all expired workers, in dict order: the scan of
cleanup_workers, collecting worker.id whenever now is at least expires_at
(broker.py lines 117 to 120). -/
def expiredOf (now : Int) : List (String × WorkerData) → List String
  | [] => []
  | (_, wd) :: rest =>
    if now ≥ wd.expires_at then wd.id :: expiredOf now rest else expiredOf now rest

/-- The inner loop of cleanup_workers over self.services.values():
service.workers.remove(item) for every service, which raises ValueError as
soon as one service queue does not contain the id (broker.py lines 126, 127). -/
def removeWorkerEverywhere (id : String) : List (String × Service) → Except String (List (String × Service))
  | [] => Except.ok []
  | (nm, svc) :: rest =>
    if id ∈ svc.workers then
      match removeWorkerEverywhere id rest with
      | Except.ok rest2 => Except.ok ((nm, { svc with workers := removeFirst id svc.workers }) :: rest2)
      | Except.error e => Except.error e
    else
      Except.error "ValueError: list.remove(x): x not in list"

/-- Removal of one expired worker: del self.workers[item] followed by the
removal from every service queue (broker.py lines 123 to 127). -/
def cleanupOne (id : String) (st : Broker) : Except String Broker :=
  match popA id st.workers with
  | none => Except.error "KeyError: worker"
  | some (_, ws) =>
    match removeWorkerEverywhere id st.services with
    | Except.ok svcs => Except.ok { st with workers := ws, services := svcs }
    | Except.error e => Except.error e

/-- Sequential removal of a list of expired worker ids. -/
def cleanupList : List String → Broker → Except String Broker
  | [], st => Except.ok st
  | id :: rest, st =>
    match cleanupOne id st with
    | Except.ok st2 => cleanupList rest st2
    | Except.error e => Except.error e

/-- Broker.cleanup_workers (broker.py lines 108 to 127): collect the expired
worker ids from a snapshot of the workers dict, then delete each one from the
dict and from every service queue. -/
def cleanup_workers (now : Int) (st : Broker) : Except String Broker :=
  cleanupList (expiredOf now st.workers) st

/-- Result of the dispatch loop: the remaining pending requests and worker
queue of the service, the remaining registry, and the send transcript. -/
structure DispatchResult where
  pending : List EventWorkerRequest
  queue : List String
  registry : List (String × WorkerData)
  sent : List Sent
deriving DecidableEq, Repr

/-- The while loop of Broker.dispatch_requests (broker.py lines 190 to 195):
while both queues are non-empty, pop the oldest request and the oldest
available worker id, pop that worker from the workers dict (KeyError if it is
not there), and send the request on the transport selected by worker class. -/
def dispatchLoop : List EventWorkerRequest → List String → List (String × WorkerData) → List Sent → Except String DispatchResult
  | req :: ps, wid :: ws, reg, sent =>
    (match popA wid reg with
     | none => Except.error "KeyError: worker"
     | some (wd, reg2) =>
       dispatchLoop ps ws reg2
         (sent ++ [if wd.type = WorkerType.zato
                   then Sent.toWorkerZato wd.worker_id req
                   else Sent.toWorkerZmq wd.worker_id req]))
  | ps, ws, reg, sent => Except.ok { pending := ps, queue := ws, registry := reg, sent := sent }

/-- Broker.dispatch_requests (broker.py lines 181 to 195): fetch the service
(KeyError if absent), clean up expired workers, then run the delivery loop
and write the remaining queues back into the service entry. -/
def dispatch_requests (now : Int) (service_name : String) (st : Broker) : Except String Broker :=
  match lookupA service_name st.services with
  | none => Except.error "KeyError: service"
  | some _ =>
    match cleanup_workers now st with
    | Except.error e => Except.error e
    | Except.ok st1 =>
      match lookupA service_name st1.services with
      | none => Except.error "KeyError: service"
      | some svc =>
        match dispatchLoop svc.pending_requests svc.workers st1.workers st1.sent with
        | Except.error e => Except.error e
        | Except.ok res =>
          let svc2 := { svc with pending_requests := res.pending, workers := res.queue }
          Except.ok { st1 with services := insertA service_name svc2 st1.services, workers := res.registry, sent := res.sent }

/-- Broker.handle_client (broker.py lines 199 to 210): lazily create the
service, append the request, then dispatch. -/
def handle_client (now : Int) (sender_id : String) (service_name : String) (received_body : String) (st : Broker) : Except String Broker :=
  let services1 := setdefaultA service_name (Service.new service_name) st.services
  match lookupA service_name services1 with
  | none => Except.error "unreachable: setdefault"
  | some svc =>
    let svc2 := { svc with pending_requests := svc.pending_requests ++ [{ body := received_body, client_id := sender_id }] }
    dispatch_requests now service_name { st with services := insertA service_name svc2 services1 }

/-- Broker.on_event_ready (broker.py lines 235 to 254): create a fresh
WorkerData of class zmq with expires_at = now + const.ttl, store it in the
workers dict, append its id to the service queue (lazily creating the
service), then dispatch. -/
def on_event_ready (now : Int) (worker_id : String) (service_name : String) (st : Broker) : Except String Broker :=
  let wd : WorkerData :=
    { type := WorkerType.zmq, worker_id := worker_id, service_name := service_name,
      registered_at := now, last_hb_sent := none, last_hb_received := none,
      expires_at := now + const.ttl }
  let workers1 := insertA wd.id wd st.workers
  let services1 := setdefaultA service_name (Service.new service_name) st.services
  match lookupA service_name services1 with
  | none => Except.error "unreachable: setdefault"
  | some svc =>
    let svc2 := { svc with workers := svc.workers ++ [wd.id] }
    dispatch_requests now service_name
      { st with workers := workers1, services := insertA service_name svc2 services1 }

/-- Broker.on_event_reply (broker.py lines 256 to 258): unpack the three
frames recipient, delimiter, body (ValueError on any other arity) and send an
EventClientReply to the recipient.  No registry access at all. -/
def on_event_reply (worker_id : String) (data : List String) (st : Broker) : Except String Broker :=
  match data with
  | [recipient, _, body] => Except.ok { st with sent := st.sent ++ [Sent.clientReply recipient body] }
  | _ => Except.error "ValueError: unpack"

/-- Broker.on_event_heartbeat (broker.py lines 260 to 274): wrap the raw id;
unknown identity is a logged no-op; a known one gets last_hb_received and
expires_at refreshed. -/
def on_event_heartbeat (now : Int) (worker_id : String) (st : Broker) : Except String Broker :=
  let wrapped := wrap_worker_id WorkerType.zmq worker_id
  match lookupA wrapped st.workers with
  | none => Except.ok st
  | some wd =>
    let wd2 := { wd with last_hb_received := some now, expires_at := now + const.ttl }
    Except.ok { st with workers := insertA wrapped wd2 st.workers }

/-- Broker.on_event_disconnect (broker.py lines 276 to 292): pop the wrapped
id from the workers dict with a None default, and remove it from each service
queue guarded by a membership test (so removeFirst, a no-op when absent). -/
def on_event_disconnect (worker_id : String) (st : Broker) : Except String Broker :=
  let wrapped := wrap_worker_id WorkerType.zmq worker_id
  Except.ok { st with
    workers := eraseA wrapped st.workers,
    services := mapRemove wrapped st.services }

/-- Broker.handle_worker (broker.py lines 226 to 231): the first payload frame
selects the handler through handle_event_map; a command outside the map is a
KeyError.  The ready handler then reads service_name from the first remaining
frame (IndexError when missing). -/
def handle_worker (now : Int) (worker_id : String) (payload : List String) (st : Broker) : Except String Broker :=
  match payload with
  | [] => Except.error "IndexError: payload"
  | event :: rest =>
    if event = const.v01.ready then
      match rest with
      | svc :: _ => on_event_ready now worker_id svc st
      | [] => Except.error "IndexError: service_name"
    else if event = const.v01.reply_from_worker then
      on_event_reply worker_id rest st
    else if event = const.v01.heartbeat then
      on_event_heartbeat now worker_id st
    else if event = const.v01.disconnect then
      on_event_disconnect worker_id st
    else
      Except.error "KeyError: unknown event"

/-- Broker.handle (broker.py lines 168 to 177): frame 0 is the sender, frame 2
the originator, frames from 3 on the payload.  A client originator goes to
handle_client (whose signature forces exactly two payload frames); every
other originator goes to handle_worker. -/
def handle (now : Int) (msg : List String) (st : Broker) : Except String Broker :=
  match msg with
  | sender_id :: _ :: originator :: payload =>
    if originator = const.v01.client then
      match payload with
      | [service_name, received_body] => handle_client now sender_id service_name received_body st
      | _ => Except.error "TypeError: handle_client arity"
    else
      handle_worker now sender_id payload st
  | _ => Except.error "IndexError: frames"

/-- A freshly constructed broker with the given configuration: empty services
and workers dicts and nothing sent. -/
def Broker.init (hb hm : Int) : Broker :=
  { heartbeat := hb, heartbeat_mult := hm, services := [], workers := [], sent := [] }

-- ########################################################################
-- Occurrence count of a worker id across all service queues
-- ########################################################################

/-- Total number of occurrences of a worker id across the available-worker
queues of all services. -/
def occQ (id : String) : List (String × Service) → Nat
  | [] => 0
  | (_, svc) :: rest => countS id svc.workers + occQ id rest

-- ########################################################################
-- Concrete states used by individual claims
-- ########################################################################

/-- An expired worker of service a (expires_at one below the sweep time used
in the C2 theorem). -/
def c2wd : WorkerData :=
  { type := WorkerType.zmq, worker_id := "w1", service_name := "a",
    registered_at := 0, last_hb_sent := none, last_hb_received := none, expires_at := 5 }

/-- A broker with two services a and b where only a references the (expired)
worker: exactly the shape every multi-service broker has. -/
def c2state : Broker :=
  { heartbeat := 3, heartbeat_mult := 2,
    services := [("a", { name := "a", pending_requests := [], workers := [c2wd.id] }),
                 ("b", { name := "b", pending_requests := [], workers := [] })],
    workers := [(c2wd.id, c2wd)], sent := [] }

/-- The expiry timestamp recorded for a fresh worker registered at time 0 on
a broker configured with the given heartbeat and heartbeat_mult options. -/
def c4expiry (hb hm : Int) : Option Int :=
  match on_event_ready 0 "w" "s" (Broker.init hb hm) with
  | Except.ok st => (lookupA (wrap_worker_id WorkerType.zmq "w") st.workers).map WorkerData.expires_at
  | Except.error _ => none

-- ########################################################################
-- Claim theorems (part 1)
-- ########################################################################

/-- C2: the claim is right and the code is wrong.  Sweeping a broker that has
two services and one expired worker (expires_at = now - 1) raises ValueError,
because cleanup_workers calls service.workers.remove on every service,
including those that never referenced the worker. -/
theorem C2_sweep_raises_with_two_services :
    cleanup_workers 6 c2state = Except.error "ValueError: list.remove(x): x not in list" := by
  rfl

/-- C1: FIFO fairness of dispatch.  With requests r1 then r2 pending for a
service and live workers wd1 then wd2 available in that order,
dispatch_requests sends r1 to wd1 and r2 to wd2, in that order, and never r1
to wd2; both queues are drained and both workers leave the registry. -/
theorem C1_fifo_pairing (now : Int) (sname : String) (r1 r2 : EventWorkerRequest)
    (wd1 wd2 : WorkerData) (hb hm : Int) (sent0 : List Sent)
    (ht1 : wd1.type = WorkerType.zmq) (ht2 : wd2.type = WorkerType.zmq)
    (he1 : now < wd1.expires_at) (he2 : now < wd2.expires_at) :
    dispatch_requests now sname
      (Broker.mk hb hm [(sname, Service.mk sname [r1, r2] [wd1.id, wd2.id])]
        [(wd1.id, wd1), (wd2.id, wd2)] sent0)
    = Except.ok (Broker.mk hb hm [(sname, Service.mk sname [] [])] []
        (sent0 ++ [Sent.toWorkerZmq wd1.worker_id r1, Sent.toWorkerZmq wd2.worker_id r2])) := by
  have h1 : ¬ (now ≥ wd1.expires_at) := not_le.mpr he1
  have h2 : ¬ (now ≥ wd2.expires_at) := not_le.mpr he2
  simp [dispatch_requests, cleanup_workers, expiredOf, cleanupList, dispatchLoop,
        popA, lookupA, eraseA, insertA, h1, h2, ht1, ht2]

/-- C1 witness: the FIFO pairing theorem applied to a concrete two-request,
two-worker state. -/
theorem C1_fifo_pairing_witness :
    dispatch_requests 0 "s"
      (Broker.mk 3 2 [("s", Service.mk "s"
          [EventWorkerRequest.mk "b1" "c1", EventWorkerRequest.mk "b2" "c2"]
          [(WorkerData.mk WorkerType.zmq "w1" "s" 0 none none 6).id,
           (WorkerData.mk WorkerType.zmq "w2" "s" 0 none none 6).id])]
        [((WorkerData.mk WorkerType.zmq "w1" "s" 0 none none 6).id, WorkerData.mk WorkerType.zmq "w1" "s" 0 none none 6),
         ((WorkerData.mk WorkerType.zmq "w2" "s" 0 none none 6).id, WorkerData.mk WorkerType.zmq "w2" "s" 0 none none 6)] [])
    = Except.ok (Broker.mk 3 2 [("s", Service.mk "s" [] [])] []
        [Sent.toWorkerZmq "w1" (EventWorkerRequest.mk "b1" "c1"),
         Sent.toWorkerZmq "w2" (EventWorkerRequest.mk "b2" "c2")]) := by
  exact C1_fifo_pairing 0 "s" (EventWorkerRequest.mk "b1" "c1") (EventWorkerRequest.mk "b2" "c2")
    (WorkerData.mk WorkerType.zmq "w1" "s" 0 none none 6)
    (WorkerData.mk WorkerType.zmq "w2" "s" 0 none none 6)
    3 2 [] rfl rfl (by decide) (by decide)

/-- C4 counterexample: on a broker configured with heartbeat = 5 and
heartbeat_mult = 2, the expiry recorded for a fresh worker is not
now + heartbeat * heartbeat_mult = 10, refuting the claim that the TTL equals
the configured product for every configuration. -/
theorem C4_counterexample : c4expiry 5 2 ≠ some (5 * 2) := by decide

/-- C4 amended: the TTL used for expires_at on a ready event is the fixed
module constant const.ttl, independent of the configured heartbeat and
heartbeat_mult options of the broker instance. -/
theorem C4_ttl_is_fixed_constant : ∀ hb hm : Int, c4expiry hb hm = some const.ttl := by
  intro hb hm
  rfl

/-- C5 counterexample: a worker message whose command frame is unknown makes
handle_worker raise KeyError (the handle_event_map lookup), rather than being
logged and dropped without raising. -/
theorem C5_counterexample :
    handle_worker 0 "w1" ["bogus"] (Broker.init 3 2) = Except.error "KeyError: unknown event" := by
  rfl

/-- C5 amended: for every worker-origin message whose command frame is not
one of READY, REPLY, HEARTBEAT, DISCONNECT, handle_worker raises KeyError
from the handler-map lookup; no handler runs, so no broker state is touched,
but the exception propagates instead of being logged and dropped. -/
theorem C5_unknown_command_raises (now : Int) (wid cmd : String) (rest : List String) (st : Broker)
    (h1 : cmd ≠ const.v01.ready) (h2 : cmd ≠ const.v01.reply_from_worker)
    (h3 : cmd ≠ const.v01.heartbeat) (h4 : cmd ≠ const.v01.disconnect) :
    handle_worker now wid (cmd :: rest) st = Except.error "KeyError: unknown event" := by
  simp [handle_worker, h1, h2, h3, h4]

/-- C5 witness: the unknown-command theorem applied at a concrete command. -/
theorem C5_unknown_command_raises_witness :
    handle_worker 0 "w1" ["bogus", "x"] (Broker.init 3 2) = Except.error "KeyError: unknown event" := by
  exact C5_unknown_command_raises 0 "w1" "bogus" ["x"] (Broker.init 3 2)
    (by decide) (by decide) (by decide) (by decide)

/-- C6: a heartbeat for an identity absent from the registry is a pure no-op
returning the state unchanged and raising nothing, while a heartbeat for a
known identity rewrites exactly that worker, setting last_hb_received to now
and extending expires_at to now + const.ttl. -/
theorem C6_heartbeat_unknown_noop (now : Int) (wid : String) (st : Broker) :
    (lookupA (wrap_worker_id WorkerType.zmq wid) st.workers = none →
      on_event_heartbeat now wid st = Except.ok st) ∧
    (∀ wd, lookupA (wrap_worker_id WorkerType.zmq wid) st.workers = some wd →
      on_event_heartbeat now wid st = Except.ok { st with workers := insertA (wrap_worker_id WorkerType.zmq wid) ({ wd with last_hb_received := some now, expires_at := now + const.ttl }) st.workers }) := by
  constructor
  · intro h
    simp [on_event_heartbeat, h]
  · intro wd h
    simp [on_event_heartbeat, h]

/-- C6 witness: both branches of the heartbeat theorem at one concrete state
holding a single worker zmq/w. -/
theorem C6_heartbeat_unknown_noop_witness :
    on_event_heartbeat 5 "u"
      (Broker.mk 3 2 [("s", Service.mk "s" [] ["zmq/w"])]
        [("zmq/w", WorkerData.mk WorkerType.zmq "w" "s" 0 none none 6)] [])
    = Except.ok (Broker.mk 3 2 [("s", Service.mk "s" [] ["zmq/w"])]
        [("zmq/w", WorkerData.mk WorkerType.zmq "w" "s" 0 none none 6)] []) ∧
    on_event_heartbeat 5 "w"
      (Broker.mk 3 2 [("s", Service.mk "s" [] ["zmq/w"])]
        [("zmq/w", WorkerData.mk WorkerType.zmq "w" "s" 0 none none 6)] [])
    = Except.ok (Broker.mk 3 2 [("s", Service.mk "s" [] ["zmq/w"])]
        [("zmq/w", WorkerData.mk WorkerType.zmq "w" "s" 0 none (some 5) 11)] []) := by
  constructor
  · exact (C6_heartbeat_unknown_noop 5 "u"
      (Broker.mk 3 2 [("s", Service.mk "s" [] ["zmq/w"])]
        [("zmq/w", WorkerData.mk WorkerType.zmq "w" "s" 0 none none 6)] [])).1 rfl
  · exact (C6_heartbeat_unknown_noop 5 "w"
      (Broker.mk 3 2 [("s", Service.mk "s" [] ["zmq/w"])]
        [("zmq/w", WorkerData.mk WorkerType.zmq "w" "s" 0 none none 6)] [])).2
      (WorkerData.mk WorkerType.zmq "w" "s" 0 none none 6) rfl

/-- C7 counterexample: a message whose originator frame is neither the client
tag nor the worker tag is not rejected: handle routes it to the worker
handler, and here a READY command frame then registers its sender as a
worker, changing broker state, against the claim that such a message is
dropped with state unchanged. -/
theorem C7_counterexample :
    handle 0 ["w1", "", "bogus-originator", "0x01", "echo"] (Broker.init 3 2)
    = Except.ok (Broker.mk 3 2 [("echo", Service.mk "echo" [] ["zmq/w1"])]
        [("zmq/w1", WorkerData.mk WorkerType.zmq "w1" "echo" 0 none none 6)] []) := by
  rfl

/-- C7 amended: every inbound message whose originator frame differs from the
client tag, the worker tag and unknown tags alike, is routed unchanged to
handle_worker; an unknown originator is therefore processed as a worker
message rather than treated as a parse error. -/
theorem C7_nonclient_goes_to_worker_handler (now : Int) (sid delim orig : String)
    (payload : List String) (st : Broker) (h : orig ≠ const.v01.client) :
    handle now (sid :: delim :: orig :: payload) st = handle_worker now sid payload st := by
  simp [handle, h]

/-- C7 witness: the routing theorem at a concrete unknown originator. -/
theorem C7_nonclient_goes_to_worker_handler_witness :
    handle 0 ["w1", "", "bogus", "0x04"] (Broker.init 3 2)
    = handle_worker 0 "w1" ["0x04"] (Broker.init 3 2) := by
  exact C7_nonclient_goes_to_worker_handler 0 "w1" "" "bogus" ["0x04"] (Broker.init 3 2) (by decide)

/-- C8: scenario A.  A client request for service echo with no worker is
queued with nothing sent; a following ready event for echo immediately sends
the queued body to that worker and leaves the pending queue (and the worker
queue and registry) empty. -/
theorem C8_queue_then_ready_dispatches :
    handle_client 0 "c1" "echo" "hi" (Broker.init 3 2)
      = Except.ok (Broker.mk 3 2
          [("echo", Service.mk "echo" [EventWorkerRequest.mk "hi" "c1"] [])] [] []) ∧
    on_event_ready 1 "w1" "echo"
      (Broker.mk 3 2 [("echo", Service.mk "echo" [EventWorkerRequest.mk "hi" "c1"] [])] [] [])
      = Except.ok (Broker.mk 3 2 [("echo", Service.mk "echo" [] [])] []
          [Sent.toWorkerZmq "w1" (EventWorkerRequest.mk "hi" "c1")]) := by
  exact ⟨rfl, rfl⟩

/-- C10: a worker REPLY event with frames recipient, delimiter, body sends
exactly one client reply carrying that body to that recipient and leaves the
workers registry, every service queue and the configuration untouched; it
never consults the registry, so this holds even for senders that are not
registered. -/
theorem C10_reply_forwards_without_registry (wid recipient delim body : String) (st : Broker) :
    on_event_reply wid [recipient, delim, body] st
    = Except.ok { st with sent := st.sent ++ [Sent.clientReply recipient body] } := by
  rfl

-- ########################################################################
-- Lemmas about the dictionary primitives
-- ########################################################################

theorem lookupA_insertA_self {α : Type} (k : String) (v : α) (l : List (String × α)) :
    lookupA k (insertA k v l) = some v := by
  induction l with
  | nil => simp [insertA, lookupA]
  | cons p rest ih =>
    obtain ⟨k0, v0⟩ := p
    by_cases h : k0 = k
    · simp [insertA, lookupA, h]
    · simp [insertA, lookupA, h, ih]

theorem lookupA_insertA_ne {α : Type} (k k2 : String) (v : α) (l : List (String × α))
    (h : k2 ≠ k) : lookupA k2 (insertA k v l) = lookupA k2 l := by
  induction l with
  | nil => simp [insertA, lookupA, Ne.symm h]
  | cons p rest ih =>
    obtain ⟨k0, v0⟩ := p
    by_cases h0 : k0 = k
    · simp [insertA, lookupA, h0, Ne.symm h]
    · by_cases h1 : k0 = k2
      · simp [insertA, lookupA, h0, h1, h]
      · simp [insertA, lookupA, h0, h1, ih]

theorem lookupA_eraseA_ne {α : Type} (k k2 : String) (l : List (String × α))
    (h : k2 ≠ k) : lookupA k2 (eraseA k l) = lookupA k2 l := by
  induction l with
  | nil => simp [eraseA]
  | cons p rest ih =>
    obtain ⟨k0, v0⟩ := p
    by_cases h0 : k0 = k
    · simp [eraseA, lookupA, h0, Ne.symm h]
    · by_cases h1 : k0 = k2
      · simp [eraseA, lookupA, h0, h1, h]
      · simp [eraseA, lookupA, h0, h1, ih]

theorem mem_eraseA {α : Type} (k : String) (p : String × α) (l : List (String × α))
    (h : p ∈ eraseA k l) : p ∈ l := by
  induction l with
  | nil => simp [eraseA] at h
  | cons q rest ih =>
    obtain ⟨k0, v0⟩ := q
    by_cases h0 : k0 = k
    · simp [eraseA, h0] at h
      exact List.mem_cons_of_mem _ h
    · simp [eraseA, h0] at h
      rcases h with h | h
      · exact List.mem_cons.mpr (Or.inl h)
      · exact List.mem_cons_of_mem _ (ih h)

theorem mem_insertA {α : Type} (k : String) (v : α) (p : String × α) (l : List (String × α))
    (h : p ∈ insertA k v l) : p = (k, v) ∨ p ∈ l := by
  induction l with
  | nil => simp [insertA] at h; exact Or.inl h
  | cons q rest ih =>
    obtain ⟨k0, v0⟩ := q
    by_cases h0 : k0 = k
    · simp [insertA, h0] at h
      rcases h with h | h
      · exact Or.inl h
      · exact Or.inr (List.mem_cons_of_mem _ h)
    · simp [insertA, h0] at h
      rcases h with h | h
      · exact Or.inr (List.mem_cons.mpr (Or.inl h))
      · rcases ih h with h2 | h2
        · exact Or.inl h2
        · exact Or.inr (List.mem_cons_of_mem _ h2)

theorem lookupA_mem {α : Type} (k : String) (v : α) (l : List (String × α))
    (h : lookupA k l = some v) : (k, v) ∈ l := by
  induction l with
  | nil => simp [lookupA] at h
  | cons q rest ih =>
    obtain ⟨k0, v0⟩ := q
    by_cases h0 : k0 = k
    · simp [lookupA, h0] at h
      exact List.mem_cons.mpr (Or.inl (by rw [h0, h]))
    · simp [lookupA, h0] at h
      exact List.mem_cons_of_mem _ (ih h)

theorem popA_eq {α : Type} (k : String) (l : List (String × α)) (v : α)
    (l2 : List (String × α)) (h : popA k l = some (v, l2)) :
    lookupA k l = some v ∧ l2 = eraseA k l := by
  unfold popA at h
  cases hl : lookupA k l with
  | none => rw [hl] at h; simp at h
  | some v0 =>
    rw [hl] at h
    simp at h
    exact ⟨by simp [hl, h.1], h.2.symm⟩

-- ########################################################################
-- Lemmas about counting and first-occurrence removal
-- ########################################################################

theorem countS_append (a : String) (l1 l2 : List String) :
    countS a (l1 ++ l2) = countS a l1 + countS a l2 := by
  induction l1 with
  | nil => simp [countS]
  | cons b rest ih => simp [countS, ih]; omega

theorem countS_pos_of_mem (a : String) (l : List String) (h : a ∈ l) :
    1 ≤ countS a l := by
  induction l with
  | nil => simp at h
  | cons b rest ih =>
    rcases List.mem_cons.mp h with h0 | h0
    · simp [countS, h0]
    · have := ih h0
      simp [countS]
      omega

theorem mem_of_countS_pos (a : String) (l : List String) (h : 1 ≤ countS a l) :
    a ∈ l := by
  induction l with
  | nil => simp [countS] at h
  | cons b rest ih =>
    by_cases h0 : b = a
    · exact List.mem_cons.mpr (Or.inl h0.symm)
    · simp [countS, h0] at h
      exact List.mem_cons_of_mem _ (ih h)

theorem countS_removeFirst_le (a b : String) (l : List String) :
    countS b (removeFirst a l) ≤ countS b l := by
  induction l with
  | nil => simp [removeFirst]
  | cons c rest ih =>
    by_cases h0 : c = a <;> simp [removeFirst, h0, countS] <;> omega

theorem countS_removeFirst_self (a : String) (l : List String) (h : a ∈ l) :
    countS a (removeFirst a l) + 1 = countS a l := by
  induction l with
  | nil => simp at h
  | cons c rest ih =>
    by_cases h0 : c = a
    · simp [removeFirst, h0, countS]
      omega
    · have hmem : a ∈ rest := by
        rcases List.mem_cons.mp h with h1 | h1
        · exact absurd h1.symm h0
        · exact h1
      simp [removeFirst, h0, countS, ih hmem]

theorem countS_removeFirst_ne (a b : String) (l : List String) (h : b ≠ a) :
    countS b (removeFirst a l) = countS b l := by
  induction l with
  | nil => simp [removeFirst]
  | cons c rest ih =>
    by_cases h0 : c = a
    · have h2 : ¬ a = b := fun e => h e.symm
      simp [removeFirst, h0, countS, h2]
    · simp [removeFirst, h0, countS, ih]

-- ########################################################################
-- Lemmas about occQ
-- ########################################################################

theorem occQ_append (id : String) (l1 l2 : List (String × Service)) :
    occQ id (l1 ++ l2) = occQ id l1 + occQ id l2 := by
  induction l1 with
  | nil => simp [occQ]
  | cons p rest ih =>
    obtain ⟨k, svc⟩ := p
    simp [occQ, ih]
    omega

theorem occQ_insertA (id k : String) (svc svc2 : Service) (l : List (String × Service))
    (h : lookupA k l = some svc) :
    occQ id (insertA k svc2 l) + countS id svc.workers
      = occQ id l + countS id svc2.workers := by
  induction l with
  | nil => simp [lookupA] at h
  | cons p rest ih =>
    obtain ⟨k0, svc0⟩ := p
    by_cases h0 : k0 = k
    · simp [lookupA, h0] at h
      rw [h] at *
      simp [insertA, h0, occQ]
      omega
    · simp [lookupA, h0] at h
      simp [insertA, h0, occQ]
      have := ih h
      omega

theorem occQ_setdefaultA (id k : String) (l : List (String × Service)) :
    occQ id (setdefaultA k (Service.new k) l) = occQ id l := by
  unfold setdefaultA
  cases lookupA k l with
  | some svc => rfl
  | none => simp [occQ_append, occQ, Service.new, countS]

theorem countS_le_occQ (id k : String) (svc : Service) (l : List (String × Service))
    (h : lookupA k l = some svc) : countS id svc.workers ≤ occQ id l := by
  induction l with
  | nil => simp [lookupA] at h
  | cons p rest ih =>
    obtain ⟨k0, svc0⟩ := p
    by_cases h0 : k0 = k
    · simp [lookupA, h0] at h
      rw [h]
      simp [occQ]
    · simp [lookupA, h0] at h
      have := ih h
      simp [occQ]
      omega

theorem occQ_mapRemove_le (id a : String) (l : List (String × Service)) :
    occQ id (mapRemove a l) ≤ occQ id l := by
  induction l with
  | nil => simp [mapRemove, occQ]
  | cons p rest ih =>
    obtain ⟨k, svc⟩ := p
    simp [mapRemove, occQ] at *
    have := countS_removeFirst_le a id svc.workers
    omega

theorem occQ_mapRemove_ne (id a : String) (l : List (String × Service)) (h : id ≠ a) :
    occQ id (mapRemove a l) = occQ id l := by
  induction l with
  | nil => simp [mapRemove, occQ]
  | cons p rest ih =>
    obtain ⟨k, svc⟩ := p
    simp [mapRemove, occQ] at *
    rw [countS_removeFirst_ne a id svc.workers h, ih]

theorem occQ_mapRemove_self (a : String) (l : List (String × Service))
    (h : occQ a l ≤ 1) : occQ a (mapRemove a l) = 0 := by
  induction l with
  | nil => simp [mapRemove, occQ]
  | cons p rest ih =>
    obtain ⟨k, svc⟩ := p
    simp [occQ] at h
    have hrest : occQ a rest ≤ 1 := by omega
    by_cases hm : a ∈ svc.workers
    · have h1 := countS_removeFirst_self a svc.workers hm
      simp [mapRemove, occQ]
      constructor
      · omega
      · simp [mapRemove] at ih
        exact ih hrest
    · have h0 : countS a svc.workers = 0 := by
        by_contra hc
        exact hm (mem_of_countS_pos a svc.workers (by omega))
      have h1 := countS_removeFirst_le a a svc.workers
      simp [mapRemove, occQ]
      constructor
      · omega
      · simp [mapRemove] at ih
        exact ih hrest

-- ########################################################################
-- Characterizations of the broker operations
-- ########################################################################

theorem removeWorkerEverywhere_ok (id : String) (l l2 : List (String × Service))
    (h : removeWorkerEverywhere id l = Except.ok l2) : l2 = mapRemove id l := by
  induction l generalizing l2 with
  | nil =>
    simp [removeWorkerEverywhere] at h
    rw [h]
    rfl
  | cons p rest ih =>
    obtain ⟨nm, svc⟩ := p
    by_cases hm : id ∈ svc.workers
    · simp [removeWorkerEverywhere, hm] at h
      cases hr : removeWorkerEverywhere id rest with
      | ok rest2 =>
        rw [hr] at h
        simp at h
        rw [← h, ih rest2 hr]
        simp [mapRemove]
      | error e => rw [hr] at h; simp at h
    · simp [removeWorkerEverywhere, hm] at h

theorem cleanupOne_ok (id : String) (st st2 : Broker) (h : cleanupOne id st = Except.ok st2) :
    st2 = { st with workers := eraseA id st.workers, services := mapRemove id st.services } := by
  unfold cleanupOne at h
  cases hp : popA id st.workers with
  | none => rw [hp] at h; simp at h
  | some pr =>
    obtain ⟨wd, ws⟩ := pr
    rw [hp] at h
    cases hr : removeWorkerEverywhere id st.services with
    | ok svcs =>
      rw [hr] at h
      simp at h
      rw [← h, (popA_eq id st.workers wd ws hp).2, removeWorkerEverywhere_ok id st.services svcs hr]
    | error e => rw [hr] at h; simp at h

theorem dispatchLoop_ok (ps : List EventWorkerRequest) :
    ∀ (wq : List String) (reg : List (String × WorkerData)) (sent : List Sent)
      (res : DispatchResult), dispatchLoop ps wq reg sent = Except.ok res →
    (∀ id, countS id res.queue ≤ countS id wq) ∧
    (∀ id, countS id wq = 0 → lookupA id res.registry = lookupA id reg) ∧
    (∀ id, countS id wq ≤ 1 → 1 ≤ countS id res.queue →
      lookupA id res.registry = lookupA id reg) := by
  induction ps with
  | nil =>
    intro wq reg sent res h
    simp [dispatchLoop] at h
    rw [← h]
    exact ⟨fun id => le_refl _, fun id _ => rfl, fun id _ _ => rfl⟩
  | cons req ps2 ih =>
    intro wq reg sent res h
    cases wq with
    | nil =>
      simp [dispatchLoop] at h
      rw [← h]
      exact ⟨fun id => le_refl _, fun id _ => rfl, fun id _ _ => rfl⟩
    | cons wid ws =>
      unfold dispatchLoop at h
      cases hp : popA wid reg with
      | none => rw [hp] at h; simp at h
      | some pr =>
        obtain ⟨wd, reg2⟩ := pr
        rw [hp] at h
        obtain ⟨hA, hB, hC⟩ := ih ws reg2 _ res h
        have hreg2 : reg2 = eraseA wid reg := (popA_eq wid reg wd reg2 hp).2
        refine ⟨?_, ?_, ?_⟩
        · intro id
          have := hA id
          simp [countS]
          omega
        · intro id hz
          simp [countS] at hz
          have hne : id ≠ wid := by
            intro e
            rw [e] at hz
            simp at hz
          rw [hB id hz.2, hreg2, lookupA_eraseA_ne wid id reg hne]
        · intro id h1 h2
          have hle := hA id
          have hpos : 1 ≤ countS id ws := le_trans h2 hle
          have hne : id ≠ wid := by
            intro e
            rw [e] at hpos h1
            simp [countS] at h1
            omega
          have hws : countS id ws ≤ 1 := by
            simp [countS] at h1
            omega
          rw [hC id hws h2, hreg2, lookupA_eraseA_ne wid id reg hne]

theorem handle_client_ok (now : Int) (sid sname body : String) (st st2 : Broker)
    (h : handle_client now sid sname body st = Except.ok st2) :
    ∃ svc, lookupA sname (setdefaultA sname (Service.new sname) st.services) = some svc ∧
      dispatch_requests now sname { st with services := insertA sname ({ svc with pending_requests := svc.pending_requests ++ [{ body := body, client_id := sid }] }) (setdefaultA sname (Service.new sname) st.services) } = Except.ok st2 := by
  unfold handle_client at h
  simp only [] at h
  cases h0 : lookupA sname (setdefaultA sname (Service.new sname) st.services) with
  | none => rw [h0] at h; simp at h
  | some svc =>
    rw [h0] at h
    simp only [] at h
    exact ⟨svc, rfl, h⟩

theorem on_event_ready_ok (now : Int) (wid sname : String) (st st2 : Broker)
    (h : on_event_ready now wid sname st = Except.ok st2) :
    ∃ svc, lookupA sname (setdefaultA sname (Service.new sname) st.services) = some svc ∧
      dispatch_requests now sname { st with workers := insertA (wrap_worker_id WorkerType.zmq wid) ({ type := WorkerType.zmq, worker_id := wid, service_name := sname, registered_at := now, last_hb_sent := none, last_hb_received := none, expires_at := now + const.ttl }) st.workers, services := insertA sname ({ svc with workers := svc.workers ++ [wrap_worker_id WorkerType.zmq wid] }) (setdefaultA sname (Service.new sname) st.services) } = Except.ok st2 := by
  unfold on_event_ready at h
  simp only [] at h
  cases h0 : lookupA sname (setdefaultA sname (Service.new sname) st.services) with
  | none => rw [h0] at h; simp at h
  | some svc =>
    rw [h0] at h
    simp only [] at h
    exact ⟨svc, rfl, h⟩

theorem dispatch_requests_ok (now : Int) (sname : String) (st st2 : Broker)
    (h : dispatch_requests now sname st = Except.ok st2) :
    ∃ st1 svc res,
      cleanup_workers now st = Except.ok st1 ∧
      lookupA sname st1.services = some svc ∧
      dispatchLoop svc.pending_requests svc.workers st1.workers st1.sent = Except.ok res ∧
      st2 = { st1 with services := insertA sname ({ svc with pending_requests := res.pending, workers := res.queue }) st1.services, workers := res.registry, sent := res.sent } := by
  unfold dispatch_requests at h
  cases h0 : lookupA sname st.services with
  | none => rw [h0] at h; simp at h
  | some svc0 =>
    rw [h0] at h
    simp only [] at h
    cases h1 : cleanup_workers now st with
    | error e => rw [h1] at h; simp at h
    | ok st1 =>
      rw [h1] at h
      simp only [] at h
      cases h2 : lookupA sname st1.services with
      | none => rw [h2] at h; simp at h
      | some svc =>
        rw [h2] at h
        simp only [] at h
        cases h3 : dispatchLoop svc.pending_requests svc.workers st1.workers st1.sent with
        | error e => rw [h3] at h; simp at h
        | ok res =>
          rw [h3] at h
          simp at h
          exact ⟨st1, svc, res, rfl, h2, h3, h.symm⟩

-- ########################################################################
-- The single-queue invariant (claim C3)
-- ########################################################################

/-- The invariant behind claim C3: every worker id occurs at most once across
all available-worker queues taken together (hence in at most one service),
and any id occurring in a queue is present in the workers registry. -/
def Inv3 (st : Broker) : Prop :=
  (∀ id, occQ id st.services ≤ 1) ∧
  (∀ id, 1 ≤ occQ id st.services → (lookupA id st.workers).isSome = true)

theorem inv3_removal (a : String) (st : Broker) (hI : Inv3 st) :
    Inv3 { st with workers := eraseA a st.workers, services := mapRemove a st.services } := by
  obtain ⟨hocc, hreg⟩ := hI
  constructor
  · intro id
    exact le_trans (occQ_mapRemove_le id a st.services) (hocc id)
  · intro id h1
    dsimp only at h1 ⊢
    by_cases hid : id = a
    · rw [hid] at h1
      rw [occQ_mapRemove_self a st.services (hocc a)] at h1
      omega
    · rw [occQ_mapRemove_ne id a st.services hid] at h1
      rw [lookupA_eraseA_ne a id st.workers hid]
      exact hreg id h1

theorem inv3_cleanupOne (a : String) (st st2 : Broker) (hI : Inv3 st)
    (h : cleanupOne a st = Except.ok st2) : Inv3 st2 := by
  rw [cleanupOne_ok a st st2 h]
  exact inv3_removal a st hI

theorem inv3_cleanupList (ids : List String) :
    ∀ st st2 : Broker, Inv3 st → cleanupList ids st = Except.ok st2 → Inv3 st2 := by
  induction ids with
  | nil =>
    intro st st2 hI h
    simp [cleanupList] at h
    rw [← h]
    exact hI
  | cons a rest ih =>
    intro st st2 hI h
    unfold cleanupList at h
    cases h0 : cleanupOne a st with
    | error e => rw [h0] at h; simp at h
    | ok stm => rw [h0] at h; exact ih stm st2 (inv3_cleanupOne a st stm hI h0) h

theorem inv3_cleanup (now : Int) (st st2 : Broker) (hI : Inv3 st)
    (h : cleanup_workers now st = Except.ok st2) : Inv3 st2 :=
  inv3_cleanupList (expiredOf now st.workers) st st2 hI h

theorem inv3_dispatch (now : Int) (sname : String) (st st2 : Broker) (hI : Inv3 st)
    (h : dispatch_requests now sname st = Except.ok st2) : Inv3 st2 := by
  obtain ⟨st1, svc, res, hclean, hlk, hloop, hst2⟩ := dispatch_requests_ok now sname st st2 h
  have hI1 : Inv3 st1 := inv3_cleanup now st st1 hI hclean
  obtain ⟨hocc1, hreg1⟩ := hI1
  obtain ⟨hA, hB, hC⟩ := dispatchLoop_ok svc.pending_requests svc.workers st1.workers st1.sent res hloop
  rw [hst2]
  constructor
  · intro id
    have heq := occQ_insertA id sname svc ({ svc with pending_requests := res.pending, workers := res.queue }) st1.services hlk
    dsimp only at heq ⊢
    have hle := hA id
    have h1 := hocc1 id
    omega
  · intro id h1
    dsimp only at h1 ⊢
    have heq := occQ_insertA id sname svc ({ svc with pending_requests := res.pending, workers := res.queue }) st1.services hlk
    dsimp only at heq
    have hle := hA id
    have hocc := hocc1 id
    have hcq : countS id svc.workers ≤ occQ id st1.services := countS_le_occQ id sname svc st1.services hlk
    have hpos1 : 1 ≤ occQ id st1.services := by omega
    have hsome := hreg1 id hpos1
    by_cases hq : 1 ≤ countS id res.queue
    · rw [hC id (by omega) hq]
      exact hsome
    · have hw0 : countS id svc.workers = 0 := by omega
      rw [hB id hw0]
      exact hsome

theorem inv3_client (now : Int) (sid sname body : String) (st st2 : Broker) (hI : Inv3 st)
    (h : handle_client now sid sname body st = Except.ok st2) : Inv3 st2 := by
  obtain ⟨svc, hlk, hd⟩ := handle_client_ok now sid sname body st st2 h
  apply inv3_dispatch now sname _ st2 _ hd
  obtain ⟨hocc, hreg⟩ := hI
  constructor
  · intro id
    have heq := occQ_insertA id sname svc ({ svc with pending_requests := svc.pending_requests ++ [{ body := body, client_id := sid }] }) (setdefaultA sname (Service.new sname) st.services) hlk
    dsimp only at heq ⊢
    rw [occQ_setdefaultA id sname st.services] at heq
    have := hocc id
    omega
  · intro id h1
    dsimp only at h1 ⊢
    have heq := occQ_insertA id sname svc ({ svc with pending_requests := svc.pending_requests ++ [{ body := body, client_id := sid }] }) (setdefaultA sname (Service.new sname) st.services) hlk
    dsimp only at heq
    rw [occQ_setdefaultA id sname st.services] at heq
    apply hreg id
    omega

theorem inv3_ready (now : Int) (wid sname : String) (st st2 : Broker) (hI : Inv3 st)
    (hg : occQ (wrap_worker_id WorkerType.zmq wid) st.services = 0)
    (h : on_event_ready now wid sname st = Except.ok st2) : Inv3 st2 := by
  obtain ⟨svc, hlk, hd⟩ := on_event_ready_ok now wid sname st st2 h
  apply inv3_dispatch now sname _ st2 _ hd
  obtain ⟨hocc, hreg⟩ := hI
  constructor
  · intro id
    have heq := occQ_insertA id sname svc ({ svc with workers := svc.workers ++ [wrap_worker_id WorkerType.zmq wid] }) (setdefaultA sname (Service.new sname) st.services) hlk
    dsimp only at heq ⊢
    rw [occQ_setdefaultA id sname st.services, countS_append] at heq
    by_cases hid : wrap_worker_id WorkerType.zmq wid = id
    · rw [← hid] at heq ⊢
      rw [hg] at heq
      have : countS (wrap_worker_id WorkerType.zmq wid) [wrap_worker_id WorkerType.zmq wid] = 1 := by
        simp [countS]
      omega
    · have : countS id [wrap_worker_id WorkerType.zmq wid] = 0 := by
        simp [countS, hid]
      have h2 := hocc id
      omega
  · intro id h1
    dsimp only at h1 ⊢
    have heq := occQ_insertA id sname svc ({ svc with workers := svc.workers ++ [wrap_worker_id WorkerType.zmq wid] }) (setdefaultA sname (Service.new sname) st.services) hlk
    dsimp only at heq
    rw [occQ_setdefaultA id sname st.services, countS_append] at heq
    by_cases hid : id = wrap_worker_id WorkerType.zmq wid
    · rw [hid, lookupA_insertA_self]
      rfl
    · rw [lookupA_insertA_ne _ _ _ _ hid]
      apply hreg id
      have hid2 : ¬ wrap_worker_id WorkerType.zmq wid = id := fun e => hid e.symm
      have : countS id [wrap_worker_id WorkerType.zmq wid] = 0 := by
        simp [countS, hid2]
      omega

theorem inv3_heartbeat (now : Int) (wid : String) (st st2 : Broker) (hI : Inv3 st)
    (h : on_event_heartbeat now wid st = Except.ok st2) : Inv3 st2 := by
  unfold on_event_heartbeat at h
  simp only [] at h
  cases h0 : lookupA (wrap_worker_id WorkerType.zmq wid) st.workers with
  | none =>
    rw [h0] at h
    simp at h
    rw [← h]
    exact hI
  | some wd =>
    rw [h0] at h
    simp at h
    obtain ⟨hocc, hreg⟩ := hI
    rw [← h]
    constructor
    · intro id
      exact hocc id
    · intro id h1
      dsimp only at h1 ⊢
      by_cases hid : id = wrap_worker_id WorkerType.zmq wid
      · rw [hid, lookupA_insertA_self]
        rfl
      · rw [lookupA_insertA_ne _ _ _ _ hid]
        exact hreg id h1

theorem inv3_disconnect (wid : String) (st st2 : Broker) (hI : Inv3 st)
    (h : on_event_disconnect wid st = Except.ok st2) : Inv3 st2 := by
  unfold on_event_disconnect at h
  simp at h
  rw [← h]
  exact inv3_removal (wrap_worker_id WorkerType.zmq wid) st hI

theorem inv3_reply (wid : String) (data : List String) (st st2 : Broker) (hI : Inv3 st)
    (h : on_event_reply wid data st = Except.ok st2) : Inv3 st2 := by
  unfold on_event_reply at h
  split at h
  · simp at h
    rw [← h]
    exact ⟨hI.1, hI.2⟩
  · simp at h

-- ########################################################################
-- Step relations and reachability
-- ########################################################################

/-- One broker operation, restricted as the amended claim C3 requires: a
worker sends ready only while its identity is in no available-worker queue. -/
inductive GStep : Broker → Broker → Prop where
  | client (now : Int) (sid sname body : String) (st st2 : Broker) :
      handle_client now sid sname body st = Except.ok st2 → GStep st st2
  | ready (now : Int) (wid sname : String) (st st2 : Broker) :
      occQ (wrap_worker_id WorkerType.zmq wid) st.services = 0 →
      on_event_ready now wid sname st = Except.ok st2 → GStep st st2
  | heartbeat (now : Int) (wid : String) (st st2 : Broker) :
      on_event_heartbeat now wid st = Except.ok st2 → GStep st st2
  | reply (wid : String) (data : List String) (st st2 : Broker) :
      on_event_reply wid data st = Except.ok st2 → GStep st st2
  | disconnect (wid : String) (st st2 : Broker) :
      on_event_disconnect wid st = Except.ok st2 → GStep st st2
  | sweep (now : Int) (st st2 : Broker) :
      cleanup_workers now st = Except.ok st2 → GStep st st2
  | dispatch (now : Int) (sname : String) (st st2 : Broker) :
      dispatch_requests now sname st = Except.ok st2 → GStep st st2

/-- States reachable from a freshly constructed broker by GStep operations. -/
def GReachable (st : Broker) : Prop :=
  ∃ hb hm : Int, Relation.ReflTransGen GStep (Broker.init hb hm) st

theorem inv3_init (hb hm : Int) : Inv3 (Broker.init hb hm) := by
  constructor
  · intro id
    simp [Broker.init, occQ]
  · intro id h1
    simp [Broker.init, occQ] at h1

theorem inv3_gstep (st st2 : Broker) (hI : Inv3 st) (h : GStep st st2) : Inv3 st2 := by
  cases h with
  | client now sid sname body st st2 h0 => exact inv3_client now sid sname body _ _ hI h0
  | ready now wid sname st st2 hg h0 => exact inv3_ready now wid sname _ _ hI hg h0
  | heartbeat now wid st st2 h0 => exact inv3_heartbeat now wid _ _ hI h0
  | reply wid data st st2 h0 => exact inv3_reply wid data _ _ hI h0
  | disconnect wid st st2 h0 => exact inv3_disconnect wid _ _ hI h0
  | sweep now st st2 h0 => exact inv3_cleanup now _ _ hI h0
  | dispatch now sname st st2 h0 => exact inv3_dispatch now sname _ _ hI h0

/-- The two ready events of the C3 counterexample: the same worker declares
service a and then service b without being dispatched in between. -/
def c3trace : Except String Broker :=
  match on_event_ready 0 "w" "a" (Broker.init 3 2) with
  | Except.ok st1 => on_event_ready 0 "w" "b" st1
  | Except.error e => Except.error e

/-- C3 counterexample: after a worker sends ready for service a and then
ready for service b (all operations succeeding), its identity zmq/w sits in
the available-worker queues of both services at once, occurring twice across
all queues, refuting the claim that a worker identity appears in at most one
available-worker queue in every reachable state. -/
theorem C3_counterexample :
    c3trace = Except.ok (Broker.mk 3 2
      [("a", Service.mk "a" [] ["zmq/w"]), ("b", Service.mk "b" [] ["zmq/w"])]
      [("zmq/w", WorkerData.mk WorkerType.zmq "w" "b" 0 none none 6)] []) ∧
    occQ "zmq/w" [("a", Service.mk "a" [] ["zmq/w"]), ("b", Service.mk "b" [] ["zmq/w"])] = 2 := by
  exact ⟨rfl, rfl⟩

/-- C3 amended: in every state reachable by ready, heartbeat, client-request,
dispatch, disconnect and sweep operations in which each worker sends ready
only while its identity is in no available-worker queue, a worker identity
occurs at most once across all available-worker queues together (hence in at
most one service, at most once), and any identity occurring in a queue is
present in the workers registry; consequently a dispatched worker, being
removed from the registry, is in no queue until it re-registers. -/
theorem C3_single_queue_invariant (st : Broker) (h : GReachable st) :
    (∀ id, occQ id st.services ≤ 1) ∧
    (∀ id, 1 ≤ occQ id st.services → (lookupA id st.workers).isSome = true) := by
  obtain ⟨hb, hm, hr⟩ := h
  have hI : Inv3 st := by
    induction hr with
    | refl => exact inv3_init hb hm
    | tail hsteps hstep ih => exact inv3_gstep _ _ ih hstep
  exact hI

/-- C3 witness: the invariant theorem applied to the concrete state reached
by one guarded ready event from a fresh broker, specialized to the worker
that the event registered. -/
theorem C3_single_queue_invariant_witness :
    (lookupA "zmq/w" [("zmq/w", WorkerData.mk WorkerType.zmq "w" "s" 0 none none 6)]).isSome = true := by
  exact (C3_single_queue_invariant
    (Broker.mk 3 2 [("s", Service.mk "s" [] ["zmq/w"])]
      [("zmq/w", WorkerData.mk WorkerType.zmq "w" "s" 0 none none 6)] [])
    ⟨3, 2, Relation.ReflTransGen.single
      (GStep.ready 0 "w" "s" (Broker.init 3 2)
        (Broker.mk 3 2 [("s", Service.mk "s" [] ["zmq/w"])]
          [("zmq/w", WorkerData.mk WorkerType.zmq "w" "s" 0 none none 6)] [])
        (by rfl) (by rfl))⟩).2 "zmq/w" (by decide)

-- ########################################################################
-- The worker-class invariant (claim C9)
-- ########################################################################

/-- All registry entries carry the external zmq worker class. -/
def RegZmq (l : List (String × WorkerData)) : Prop :=
  ∀ p ∈ l, (Prod.snd p).type = WorkerType.zmq

/-- No recorded send went through the internal-delivery branch. -/
def SentZmq (l : List Sent) : Prop :=
  ∀ e ∈ l, e.isZato = false

/-- The invariant behind claim C9. -/
def Inv9 (st : Broker) : Prop := RegZmq st.workers ∧ SentZmq st.sent

theorem dispatchLoop_zmq (ps : List EventWorkerRequest) :
    ∀ (wq : List String) (reg : List (String × WorkerData)) (sent : List Sent)
      (res : DispatchResult), RegZmq reg → SentZmq sent →
      dispatchLoop ps wq reg sent = Except.ok res →
      RegZmq res.registry ∧ SentZmq res.sent := by
  induction ps with
  | nil =>
    intro wq reg sent res hreg hsent h
    simp [dispatchLoop] at h
    rw [← h]
    exact ⟨hreg, hsent⟩
  | cons req ps2 ih =>
    intro wq reg sent res hreg hsent h
    cases wq with
    | nil =>
      simp [dispatchLoop] at h
      rw [← h]
      exact ⟨hreg, hsent⟩
    | cons wid ws =>
      unfold dispatchLoop at h
      cases hp : popA wid reg with
      | none => rw [hp] at h; simp at h
      | some pr =>
        obtain ⟨wd, reg2⟩ := pr
        rw [hp] at h
        obtain ⟨hlk, herase⟩ := popA_eq wid reg wd reg2 hp
        have hwd : wd.type = WorkerType.zmq := hreg (wid, wd) (lookupA_mem wid wd reg hlk)
        have hreg2 : RegZmq reg2 := by
          intro p hmem
          have hmem2 : p ∈ eraseA wid reg := herase ▸ hmem
          exact hreg p (mem_eraseA wid p reg hmem2)
        have hsent2 : SentZmq (sent ++ [if wd.type = WorkerType.zato then Sent.toWorkerZato wd.worker_id req else Sent.toWorkerZmq wd.worker_id req]) := by
          intro e hmem
          rcases List.mem_append.mp hmem with hm | hm
          · exact hsent e hm
          · simp [hwd] at hm
            rw [hm]
            rfl
        exact ih ws reg2 _ res hreg2 hsent2 h

theorem inv9_cleanupOne (a : String) (st st2 : Broker) (hI : Inv9 st)
    (h : cleanupOne a st = Except.ok st2) : Inv9 st2 := by
  rw [cleanupOne_ok a st st2 h]
  obtain ⟨hreg, hsent⟩ := hI
  constructor
  · intro p hmem
    exact hreg p (mem_eraseA a p st.workers hmem)
  · exact hsent

theorem inv9_cleanupList (ids : List String) :
    ∀ st st2 : Broker, Inv9 st → cleanupList ids st = Except.ok st2 → Inv9 st2 := by
  induction ids with
  | nil =>
    intro st st2 hI h
    simp [cleanupList] at h
    rw [← h]
    exact hI
  | cons a rest ih =>
    intro st st2 hI h
    unfold cleanupList at h
    cases h0 : cleanupOne a st with
    | error e => rw [h0] at h; simp at h
    | ok stm => rw [h0] at h; exact ih stm st2 (inv9_cleanupOne a st stm hI h0) h

theorem inv9_cleanup (now : Int) (st st2 : Broker) (hI : Inv9 st)
    (h : cleanup_workers now st = Except.ok st2) : Inv9 st2 :=
  inv9_cleanupList (expiredOf now st.workers) st st2 hI h

theorem inv9_dispatch (now : Int) (sname : String) (st st2 : Broker) (hI : Inv9 st)
    (h : dispatch_requests now sname st = Except.ok st2) : Inv9 st2 := by
  obtain ⟨st1, svc, res, hclean, hlk, hloop, hst2⟩ := dispatch_requests_ok now sname st st2 h
  obtain ⟨hreg1, hsent1⟩ := inv9_cleanup now st st1 hI hclean
  obtain ⟨hregr, hsentr⟩ := dispatchLoop_zmq svc.pending_requests svc.workers st1.workers st1.sent res hreg1 hsent1 hloop
  rw [hst2]
  exact ⟨hregr, hsentr⟩

theorem inv9_client (now : Int) (sid sname body : String) (st st2 : Broker) (hI : Inv9 st)
    (h : handle_client now sid sname body st = Except.ok st2) : Inv9 st2 := by
  obtain ⟨svc, hlk, hd⟩ := handle_client_ok now sid sname body st st2 h
  apply inv9_dispatch now sname _ st2 _ hd
  exact ⟨hI.1, hI.2⟩

theorem inv9_ready (now : Int) (wid sname : String) (st st2 : Broker) (hI : Inv9 st)
    (h : on_event_ready now wid sname st = Except.ok st2) : Inv9 st2 := by
  obtain ⟨svc, hlk, hd⟩ := on_event_ready_ok now wid sname st st2 h
  apply inv9_dispatch now sname _ st2 _ hd
  obtain ⟨hreg, hsent⟩ := hI
  constructor
  · intro p hmem
    rcases mem_insertA _ _ p st.workers hmem with hm | hm
    · rw [hm]
    · exact hreg p hm
  · exact hsent

theorem inv9_heartbeat (now : Int) (wid : String) (st st2 : Broker) (hI : Inv9 st)
    (h : on_event_heartbeat now wid st = Except.ok st2) : Inv9 st2 := by
  unfold on_event_heartbeat at h
  simp only [] at h
  cases h0 : lookupA (wrap_worker_id WorkerType.zmq wid) st.workers with
  | none =>
    rw [h0] at h
    simp at h
    rw [← h]
    exact hI
  | some wd =>
    rw [h0] at h
    simp at h
    obtain ⟨hreg, hsent⟩ := hI
    have hwd : wd.type = WorkerType.zmq :=
      hreg (wrap_worker_id WorkerType.zmq wid, wd) (lookupA_mem _ wd st.workers h0)
    rw [← h]
    constructor
    · intro p hmem
      rcases mem_insertA _ _ p st.workers hmem with hm | hm
      · rw [hm]
        exact hwd
      · exact hreg p hm
    · exact hsent

theorem inv9_disconnect (wid : String) (st st2 : Broker) (hI : Inv9 st)
    (h : on_event_disconnect wid st = Except.ok st2) : Inv9 st2 := by
  unfold on_event_disconnect at h
  simp at h
  obtain ⟨hreg, hsent⟩ := hI
  rw [← h]
  constructor
  · intro p hmem
    exact hreg p (mem_eraseA _ p st.workers hmem)
  · exact hsent

theorem inv9_reply (wid : String) (data : List String) (st st2 : Broker) (hI : Inv9 st)
    (h : on_event_reply wid data st = Except.ok st2) : Inv9 st2 := by
  unfold on_event_reply at h
  split at h
  · simp at h
    obtain ⟨hreg, hsent⟩ := hI
    rw [← h]
    constructor
    · exact hreg
    · intro e hmem
      rcases List.mem_append.mp hmem with hm | hm
      · exact hsent e hm
      · simp at hm
        rw [hm]
        rfl
  · simp at h

/-- One broker operation, unrestricted: every way the event loop can change
broker state through the handlers, the sweep or the dispatcher. -/
inductive Step : Broker → Broker → Prop where
  | client (now : Int) (sid sname body : String) (st st2 : Broker) :
      handle_client now sid sname body st = Except.ok st2 → Step st st2
  | ready (now : Int) (wid sname : String) (st st2 : Broker) :
      on_event_ready now wid sname st = Except.ok st2 → Step st st2
  | heartbeat (now : Int) (wid : String) (st st2 : Broker) :
      on_event_heartbeat now wid st = Except.ok st2 → Step st st2
  | reply (wid : String) (data : List String) (st st2 : Broker) :
      on_event_reply wid data st = Except.ok st2 → Step st st2
  | disconnect (wid : String) (st st2 : Broker) :
      on_event_disconnect wid st = Except.ok st2 → Step st st2
  | sweep (now : Int) (st st2 : Broker) :
      cleanup_workers now st = Except.ok st2 → Step st st2
  | dispatch (now : Int) (sname : String) (st st2 : Broker) :
      dispatch_requests now sname st = Except.ok st2 → Step st st2

/-- States reachable from a freshly constructed broker by any operations. -/
def Reachable (st : Broker) : Prop :=
  ∃ hb hm : Int, Relation.ReflTransGen Step (Broker.init hb hm) st

theorem inv9_init (hb hm : Int) : Inv9 (Broker.init hb hm) := by
  constructor
  · intro p hmem
    simp [Broker.init] at hmem
  · intro e hmem
    simp [Broker.init] at hmem

theorem inv9_step (st st2 : Broker) (hI : Inv9 st) (h : Step st st2) : Inv9 st2 := by
  cases h with
  | client now sid sname body st st2 h0 => exact inv9_client now sid sname body _ _ hI h0
  | ready now wid sname st st2 h0 => exact inv9_ready now wid sname _ _ hI h0
  | heartbeat now wid st st2 h0 => exact inv9_heartbeat now wid _ _ hI h0
  | reply wid data st st2 h0 => exact inv9_reply wid data _ _ hI h0
  | disconnect wid st st2 h0 => exact inv9_disconnect wid _ _ hI h0
  | sweep now st st2 h0 => exact inv9_cleanup now _ _ hI h0
  | dispatch now sname st st2 h0 => exact inv9_dispatch now sname _ _ hI h0

/-- C9: in every reachable broker state, under any sequence of operations,
every WorkerData stored in the workers registry has the external zmq worker
class (the ready handler is the only inserting operation and fixes that
class), and no recorded send ever went through the internal-delivery
send_to_worker_zato branch of dispatch_requests. -/
theorem C9_registry_all_zmq (st : Broker) (h : Reachable st) :
    (∀ p ∈ st.workers, (Prod.snd p).type = WorkerType.zmq) ∧
    (∀ e ∈ st.sent, e.isZato = false) := by
  obtain ⟨hb, hm, hr⟩ := h
  have hI : Inv9 st := by
    induction hr with
    | refl => exact inv9_init hb hm
    | tail hsteps hstep ih => exact inv9_step _ _ ih hstep
  exact hI

/-- C9 witness: the theorem applied to the concrete state reached by a client
request followed by a ready event, whose transcript holds one send, shown to
avoid the internal-delivery branch. -/
theorem C9_registry_all_zmq_witness :
    Sent.isZato (Sent.toWorkerZmq "w1" (EventWorkerRequest.mk "hi" "c1")) = false := by
  exact (C9_registry_all_zmq
    (Broker.mk 3 2 [("echo", Service.mk "echo" [] [])] []
      [Sent.toWorkerZmq "w1" (EventWorkerRequest.mk "hi" "c1")])
    ⟨3, 2, Relation.ReflTransGen.tail
      (Relation.ReflTransGen.single
        (Step.client 0 "c1" "echo" "hi" (Broker.init 3 2)
          (Broker.mk 3 2 [("echo", Service.mk "echo" [EventWorkerRequest.mk "hi" "c1"] [])] [] [])
          (by rfl)))
      (Step.ready 1 "w1" "echo"
        (Broker.mk 3 2 [("echo", Service.mk "echo" [EventWorkerRequest.mk "hi" "c1"] [])] [] [])
        (Broker.mk 3 2 [("echo", Service.mk "echo" [] [])] []
          [Sent.toWorkerZmq "w1" (EventWorkerRequest.mk "hi" "c1")])
        (by rfl))⟩).2
    (Sent.toWorkerZmq "w1" (EventWorkerRequest.mk "hi" "c1")) (by decide)
